import Mathlib

/-!
Shallow embedding of the crypto-dashboard chat core:
query classification (`parseQuery` in the chat service), data resolution
(local store lookup, `searchCoin` remote fallback), the cache gateway
(`getCached` / `setCached` / `getCacheKey`), the retry wrapper used by
`fetchCoinHistory`, and the answer formatting.

Modelling conventions:
- SQL `decimal` columns and JavaScript floats are modelled as exact
  rationals; `parseFloat` applied to a stored decimal string is modelled
  as the rational the string denotes.  Non-finite JavaScript values
  (Infinity, -Infinity, NaN), which arise from dividing by zero, are
  modelled explicitly by the `JsNum` type.
- Asynchronous calls that can throw are modelled as total functions with
  explicit failure flags (`failing`, `indexOk`, `marketsOk`); a `try`/
  `catch` in the source becomes a branch on those flags.
- Remote consultation is observable through an `Effects` record counting
  provider index fetches (`/coins/list`) and market fetches
  (`/coins/markets`).
- JavaScript regular expressions are embedded as explicit leftmost-match
  scanners with lazy capture, one per rule of the parser.
-/

/-! ### String utilities -/

/-- Drop a literal text from the front of a character list, or fail.
Embeds matching a fixed substring of a JS regex at the current position. -/
def dropLit (lit : String) (s : List Char) : Option (List Char) :=
  if lit.data.isPrefixOf s then some (s.drop lit.data.length) else none

/-- Continuation of `lazyCapture`: the capture group has already consumed
`acc` (reversed); stop at the first `?` or at end of input, fail on a
newline (`.` does not match newlines). -/
def capAux (acc : List Char) : List Char → Option (List Char)
  | [] => some acc.reverse
  | c :: rest =>
    if c = '?' then some acc.reverse
    else if c = '\n' then none
    else capAux (c :: acc) rest

/-- Embeds the JS regex fragment `(.+?)(?:\?|$)`: lazily capture at least
one character, up to (excluding) the first `?` or the end of the input. -/
def lazyCapture : List Char → Option (List Char)
  | [] => none
  | c :: rest => if c = '\n' then none else capAux [c] rest

/-- Leftmost-match search: try the position matcher `f` at every start
position from the left, as an unanchored JS regex does. -/
def scanMatch {α : Type} (f : List Char → Option α) : List Char → Option α
  | [] => f []
  | c :: rest =>
    match f (c :: rest) with
    | some r => some r
    | none => scanMatch f rest

/-- `needle` occurs as a contiguous substring of the character list
(embeds JS `String.prototype.includes`). -/
def isSubstrChars (needle : List Char) : List Char → Bool
  | [] => needle.isEmpty
  | c :: rest => needle.isPrefixOf (c :: rest) || isSubstrChars needle rest

/-- JS `includes` on strings. -/
def isSubstr (needle hay : String) : Bool :=
  isSubstrChars needle.data hay.data

/-- Decimal digit characters to the natural number they denote
(embeds `parseInt(‥, 10)` on an all-digit capture). -/
def digitsToNat (ds : List Char) : Nat :=
  ds.foldl (fun n c => n * 10 + (c.toNat - '0'.toNat)) 0

/-- JS `String.prototype.toLowerCase()` (ASCII, as exercised here). -/
def toLowerStr (s : String) : String :=
  String.mk (s.data.map Char.toLower)

/-- JS `String.prototype.toUpperCase()` (ASCII, as exercised here). -/
def toUpperStr (s : String) : String :=
  String.mk (s.data.map Char.toUpper)

/-- JS `String.prototype.trim()`: strip whitespace from both ends. -/
def trimStr (s : String) : String :=
  String.mk (((s.data.dropWhile Char.isWhitespace).reverse.dropWhile
    Char.isWhitespace).reverse)

/-- `query.toLowerCase().trim()`, the normalization applied to free text. -/
def normQ (s : String) : String := trimStr (toLowerStr s)

/-! ### Exact rational arithmetic

The four operations are spelled out through `mkRat` over numerators and
denominators (the textbook formulas) rather than through the library's
`Rat.add`/`Rat.sub`/`Rat.mul`/`Rat.inv`, so that every concrete theorem
below evaluates by `decide`. -/

/-- Rational addition. -/
def ratAdd (a b : ℚ) : ℚ :=
  mkRat (a.num * (b.den : Int) + b.num * (a.den : Int)) (a.den * b.den)

/-- Rational subtraction. -/
def ratSub (a b : ℚ) : ℚ :=
  mkRat (a.num * (b.den : Int) - b.num * (a.den : Int)) (a.den * b.den)

/-- Rational multiplication. -/
def ratMul (a b : ℚ) : ℚ :=
  mkRat (a.num * b.num) (a.den * b.den)

/-- Rational division (of a nonzero divisor; the zero-divisor case is
handled separately by `jsDiv`). -/
def ratDiv (a b : ℚ) : ℚ :=
  Rat.divInt (a.num * (b.den : Int)) (b.num * (a.den : Int))

/-- Rational negation. -/
def ratNeg (a : ℚ) : ℚ :=
  mkRat (-a.num) a.den

/-! ### Number formatting -/

/-- Two-digit zero-padded rendering of a value below 100. -/
def pad2 (n : Nat) : String :=
  if n < 10 then "0" ++ toString n else toString n

/-- Insert a thousands separator after every three digits, counted from
the right; the input is the reversed digit list. -/
def groupAux (k : Nat) : List Char → List Char
  | [] => []
  | c :: rest =>
    if k = 3 then ',' :: c :: groupAux 1 rest else c :: groupAux (k + 1) rest

/-- `en-US` thousands grouping of a digit string ("45000" ↦ "45,000"). -/
def groupDigits (s : String) : String :=
  ((groupAux 0 s.data.reverse).reverse).asString

/-- `toFixed(2)` on a nonnegative rational: two decimal places, no
grouping; ties are not exercised by the embedded data. -/
def fixed2abs (q : ℚ) : String :=
  let n := (Rat.floor (ratAdd (ratMul q 100) (mkRat 1 2))).toNat
  toString (n / 100) ++ "." ++ pad2 (n % 100)

/-- JS `Number.prototype.toFixed(2)` on a finite value. -/
def fixed2 (q : ℚ) : String :=
  if q < 0 then "-" ++ fixed2abs (ratNeg q) else fixed2abs q

/-- `toLocaleString("en-US", {minimumFractionDigits: 2,
maximumFractionDigits: 2})` on a nonnegative value. -/
def formatUSDabs (q : ℚ) : String :=
  let n := (Rat.floor (ratAdd (ratMul q 100) (mkRat 1 2))).toNat
  groupDigits (toString (n / 100)) ++ "." ++ pad2 (n % 100)

/-- `en-US` currency rendering: thousands separators, exactly two
decimal places. -/
def formatUSD (q : ℚ) : String :=
  if q < 0 then "-" ++ formatUSDabs (ratNeg q) else formatUSDabs q

/-- A JavaScript number as it flows through the trend computation:
either a finite value or one of the non-finite values produced by
dividing by zero. -/
inductive JsNum
  | fin (q : ℚ)
  | inf
  | negInf
  | nan
deriving DecidableEq, Repr

/-- JS division `a / b`: finite quotient when `b ≠ 0`, otherwise the
non-finite value JS produces (`Infinity`, `-Infinity` or `NaN`). -/
def jsDiv (a b : ℚ) : JsNum :=
  if b = 0 then
    if 0 < a then JsNum.inf else if a < 0 then JsNum.negInf else JsNum.nan
  else JsNum.fin (ratDiv a b)

/-- Multiplication of a JS number by the positive literal 100. -/
def jsMul100 : JsNum → JsNum
  | JsNum.fin q => JsNum.fin (ratMul q 100)
  | JsNum.inf => JsNum.inf
  | JsNum.negInf => JsNum.negInf
  | JsNum.nan => JsNum.nan

/-- JS comparison `x >= 0` (`Infinity >= 0` is true, `NaN >= 0` false). -/
def jsGe0 : JsNum → Bool
  | JsNum.fin q => decide (0 ≤ q)
  | JsNum.inf => true
  | JsNum.negInf => false
  | JsNum.nan => false

/-- JS `toFixed(2)`, including its behaviour on non-finite values. -/
def jsToFixed2 : JsNum → String
  | JsNum.fin q => fixed2 q
  | JsNum.inf => "Infinity"
  | JsNum.negInf => "-Infinity"
  | JsNum.nan => "NaN"

/-- The percent change `((currentPrice - pastPrice) / pastPrice) * 100`
exactly as `handleTrendQuery` computes it, with no guard on a zero
`pastPrice`. -/
def trendChange (currentPrice pastPrice : ℚ) : JsNum :=
  jsMul100 (jsDiv (ratSub currentPrice pastPrice) pastPrice)

/-! ### Data model (schema.ts and coingecko.service.ts interfaces) -/

/-- A row of the `coins` table: decimal columns are nullable rationals,
`market_cap` is a nullable integer (drizzle `bigint` in number mode). -/
structure Coin where
  coingeckoId : String
  symbol : String
  name : String
  currentPrice : Option ℚ
  marketCap : Option Int
  priceChange24h : Option ℚ
  volume24h : Option ℚ
deriving DecidableEq, Repr

/-- A row of the `historical_prices` table. -/
structure HistPoint where
  coinId : String
  timestamp : Int
  price : Option ℚ
deriving DecidableEq, Repr

/-- The `CoinMarketData` interface returned by the provider's
`/coins/markets` endpoint. -/
structure CoinMarketData where
  id : String
  symbol : String
  name : String
  current_price : ℚ
  market_cap : ℚ
  price_change_percentage_24h : ℚ
  total_volume : ℚ
  last_updated : String
deriving DecidableEq, Repr

/-- The `HistoricalPricePoint` interface produced by `fetchCoinHistory`. -/
structure HistoricalPricePoint where
  timestamp : Int
  price : ℚ
deriving DecidableEq, Repr

/-- An entry of the provider's full coin index (`/coins/list`). -/
structure IndexCoin where
  id : String
  symbol : String
  name : String
deriving DecidableEq, Repr

/-- The local Postgres store, plus a flag modelling a store whose
queries throw (caught by each handler's `try`/`catch`). -/
structure DbState where
  failing : Bool
  coins : List Coin
  history : List HistPoint
deriving Repr

/-- The remote provider: availability flags model the axios calls that
can throw, `index` is the `/coins/list` payload, `markets` the rows
`/coins/markets` can return (looked up by coin id). -/
structure RemoteState where
  indexOk : Bool
  index : List IndexCoin
  marketsOk : Bool
  markets : List CoinMarketData
deriving Repr

/-- One request's environment: local store, remote provider, and the
current time (`new Date()`), in days since the epoch. -/
structure Env where
  db : DbState
  remote : RemoteState
  now : Int
deriving Repr

/-- Count of outbound provider calls made while answering, making
"the remote provider was consulted" observable. -/
structure Effects where
  indexFetches : Nat
  marketFetches : Nat
deriving DecidableEq, Repr

/-- No outbound provider call. -/
def noFx : Effects := { indexFetches := 0, marketFetches := 0 }

/-! ### Cache gateway (cache.ts) -/

/-- The Redis-backed cache: `configured` models the presence of the
Upstash environment variables, `failing` a store whose operations
throw, `entries` the stored `(key, ttl, value)` triples.  A stored
value is nullable, exactly as a JSON `null` can be stored. -/
structure CacheState (β : Type) where
  configured : Bool
  failing : Bool
  entries : List (String × Nat × Option β)
deriving DecidableEq, Repr

/-- `getCached`: `null` (here `none`) when the store is unconfigured,
when the underlying `get` throws, on a miss, and when the stored value
is the JSON `null` — the source cannot tell the last two apart. -/
def getCached {β : Type} (st : CacheState β) (key : String) : Option β :=
  if st.configured then
    if st.failing then none
    else
      match st.entries.find? (fun e => e.1 == key) with
      | none => none
      | some e => e.2.2
  else none

/-- `setCached`: a no-op when the store is unconfigured or its `setex`
throws; otherwise records the entry (newest entry shadows older ones). -/
def setCached {β : Type} (st : CacheState β) (key : String) (value : Option β)
    (ttl : Nat) : CacheState β :=
  if st.configured then
    if st.failing then st
    else { st with entries := (key, ttl, value) :: st.entries }
  else st

/-- `getCacheKey`: the namespaced colon-joined key. -/
def getCacheKey (type : String) (args : List String) : String :=
  "crypto:" ++ type ++ ":" ++ String.intercalate ":" args

/-- `CACHE_TTL.COINS`. -/
def CACHE_TTL_COINS : Nat := 60

/-- `CACHE_TTL.HISTORY`. -/
def CACHE_TTL_HISTORY : Nat := 300

/-- `CACHE_TTL.SEARCH`. -/
def CACHE_TTL_SEARCH : Nat := 3600

/-- The search-result cache used by `searchCoin`. -/
def SearchCache : Type := CacheState CoinMarketData

/-! ### Remote client (coingecko.service.ts) -/

/-- An axios error as `retry` inspects it: `response?.status`, absent
when the failure carried no HTTP response. -/
structure HttpError where
  status : Option Nat
deriving DecidableEq, Repr

/-- What `retry` can propagate: the original error, or the
`"Max retries exceeded"` error reachable only with `retries ≤ 0`. -/
inductive RetryErr
  | http (e : HttpError)
  | maxRetriesExceeded
deriving DecidableEq, Repr

/-- The `for (let i = 0; i < retries; i++)` loop of `retry`, written
structurally on the number `rem` of attempts remaining (`rem = retries - i`;
the source's `i === retries - 1` is `rem = 1`).  Besides the result it
returns the list of backoff waits (`delay * 2^i`, in ms) and the number
of attempts made. -/
def retryLoop {α : Type} (fn : Nat → Except HttpError α) (delay : Nat)
    (i : Nat) : Nat → Except RetryErr α × List Nat × Nat
  | 0 => (Except.error RetryErr.maxRetriesExceeded, [], 0)
  | rem + 1 =>
    match fn i with
    | Except.ok a => (Except.ok a, [], 1)
    | Except.error e =>
      if (e.status != some 429) || (rem == 0) then
        (Except.error (RetryErr.http e), [], 1)
      else
        let r := retryLoop fn delay (i + 1) rem
        (r.1, delay * 2 ^ i :: r.2.1, r.2.2 + 1)

/-- `retry(fn, retries, delay)`: attempt outcomes are indexed by the
attempt number, modelling the changing external world. -/
def retry {α : Type} (fn : Nat → Except HttpError α) (retries : Nat)
    (delay : Nat) : Except RetryErr α × List Nat × Nat :=
  retryLoop fn delay 0 retries

/-- `fetchCoinHistory`: wraps the market-chart request in `retry` with
the default `retries = 3`, `delay = 10000`.  An attempt's successful
response is the optional `prices` array (`response.data.prices || []`)
of `[timestamp, price]` pairs. -/
def fetchCoinHistory (attempts : Nat → Except HttpError (Option (List (Int × ℚ)))) :
    Except RetryErr (List HistoricalPricePoint) × List Nat × Nat :=
  retry (fun i =>
    (attempts i).map (fun resp =>
      (resp.getD []).map (fun p => { timestamp := p.1, price := p.2 }))) 3 10000

/-- The matching pass of `searchCoin` over the full coin index: first an
exact id/symbol/name match, else the first substring match on name or
symbol. -/
def findIndexMatch (index : List IndexCoin) (lowerQuery : String) :
    Option IndexCoin :=
  match index.find? (fun c =>
      toLowerStr c.id == lowerQuery || toLowerStr c.symbol == lowerQuery ||
      toLowerStr c.name == lowerQuery) with
  | some c => some c
  | none =>
    index.find? (fun c =>
      isSubstr lowerQuery (toLowerStr c.name) || isSubstr lowerQuery (toLowerStr c.symbol))

/-- `searchCoin(query)`: cache check, full-index fetch, matching, market
fetch, result caching; every `throw` inside the `try` block (an
unavailable index or market endpoint) is caught and becomes `none`. -/
def searchCoin (query : String) (env : Env) (cache : SearchCache) :
    Option CoinMarketData × SearchCache × Effects :=
  let cacheKey := getCacheKey "search" [normQ query]
  match getCached cache cacheKey with
  | some v => (some v, cache, noFx)
  | none =>
    if env.remote.indexOk then
      let lowerQuery := normQ query
      match findIndexMatch env.remote.index lowerQuery with
      | none =>
        (none, setCached cache cacheKey none CACHE_TTL_SEARCH,
          { indexFetches := 1, marketFetches := 0 })
      | some m =>
        if env.remote.marketsOk then
          let result := env.remote.markets.find? (fun d => d.id == m.id)
          (result, setCached cache cacheKey result CACHE_TTL_SEARCH,
            { indexFetches := 1, marketFetches := 1 })
        else (none, cache, { indexFetches := 1, marketFetches := 1 })
    else (none, cache, { indexFetches := 1, marketFetches := 0 })

/-! ### Query classifier (the regex rules of parseQuery) -/

/-- Rule 1 pattern `(?:what is the )?price of (.+?)(?:\?|$)` at one start
position.  The two prefix options start with different characters, so the
regex engine's ordered attempt (optional group present first) is an
if-else. -/
def matchPriceAt (s : List Char) : Option (List Char) :=
  match dropLit "what is the price of " s with
  | some rest => lazyCapture rest
  | none =>
    match dropLit "price of " s with
    | some rest => lazyCapture rest
    | none => none

/-- Rule 1 matcher on the lower-cased query. -/
def matchPrice (t : String) : Option String :=
  (scanMatch matchPriceAt t.data).map List.asString

/-- The part of rule 2 after the optional `show me the `:
`(\d+)?-?day (?:trend|history) of (.+?)(?:\?|$)`.  The greedy digit and
hyphen options need no backtracking: a digit or `-` left unconsumed can
never match the following literal `day `. -/
def trendTail (r : List Char) : Option (Option (List Char) × List Char) :=
  let ds := r.takeWhile Char.isDigit
  let r1 := r.drop ds.length
  let r2 := match r1 with
    | '-' :: rest => rest
    | _ => r1
  match dropLit "day " r2 with
  | none => none
  | some r3 =>
    let r4opt := match dropLit "trend of " r3 with
      | some x => some x
      | none => dropLit "history of " r3
    match r4opt with
    | none => none
    | some r4 =>
      match lazyCapture r4 with
      | none => none
      | some cap => some (if ds.isEmpty then none else some ds, cap)

/-- Rule 2 pattern
`(?:show me the )?(\d+)?-?day (?:trend|history) of (.+?)(?:\?|$)` at one
start position. -/
def matchTrendAt (s : List Char) : Option (Option (List Char) × List Char) :=
  match dropLit "show me the " s with
  | some r => trendTail r
  | none => trendTail s

/-- Rule 2 matcher: the optional day-count capture and the coin capture. -/
def matchTrend (t : String) : Option (Option (List Char) × String) :=
  (scanMatch matchTrendAt t.data).map (fun p => (p.1, p.2.asString))

/-- Rule 3 pattern `(?:what is the )?volume of (.+?)(?:\?|$)` at one
start position. -/
def matchVolumeAt (s : List Char) : Option (List Char) :=
  match dropLit "what is the volume of " s with
  | some rest => lazyCapture rest
  | none =>
    match dropLit "volume of " s with
    | some rest => lazyCapture rest
    | none => none

/-- Rule 3 matcher. -/
def matchVolume (t : String) : Option String :=
  (scanMatch matchVolumeAt t.data).map List.asString

/-- The part of rule 4 after the optional `what is the `:
`(?:24h |24 hour )?change of (.+?)(?:\?|$)`; the three alternatives are
pairwise distinguishable at a fixed offset, so ordered attempts are an
if-else chain. -/
def changeTail (r : List Char) : Option (List Char) :=
  match dropLit "24h change of " r with
  | some rest => lazyCapture rest
  | none =>
    match dropLit "24 hour change of " r with
    | some rest => lazyCapture rest
    | none =>
      match dropLit "change of " r with
      | some rest => lazyCapture rest
      | none => none

/-- Rule 4 pattern
`(?:what is the )?(?:24h |24 hour )?change of (.+?)(?:\?|$)` at one
start position. -/
def matchChangeAt (s : List Char) : Option (List Char) :=
  match dropLit "what is the " s with
  | some r => changeTail r
  | none => changeTail s

/-- Rule 4 matcher. -/
def matchChange (t : String) : Option String :=
  (scanMatch matchChangeAt t.data).map List.asString

/-- The part of rule 5 after `market cap`: `(?:italization)? of ‥`. -/
def marketCapTail (r : List Char) : Option (List Char) :=
  match dropLit "italization of " r with
  | some rest => lazyCapture rest
  | none =>
    match dropLit " of " r with
    | some rest => lazyCapture rest
    | none => none

/-- Rule 5 pattern
`(?:what is the )?market cap(?:italization)? of (.+?)(?:\?|$)` at one
start position. -/
def matchMarketCapAt (s : List Char) : Option (List Char) :=
  match dropLit "what is the market cap" s with
  | some r => marketCapTail r
  | none =>
    match dropLit "market cap" s with
    | some r => marketCapTail r
    | none => none

/-- Rule 5 matcher. -/
def matchMarketCap (t : String) : Option String :=
  (scanMatch matchMarketCapAt t.data).map List.asString

/-- Rule 6 pattern `show me top (\d+) coins?` at one start position;
the trailing optional `s` always succeeds and captures nothing. -/
def matchTopAt (s : List Char) : Option (List Char) :=
  match dropLit "show me top " s with
  | none => none
  | some r =>
    let ds := r.takeWhile Char.isDigit
    if ds.isEmpty then none
    else
      match dropLit " coin" (r.drop ds.length) with
      | some _ => some ds
      | none => none

/-- Rule 6 matcher: the captured digit string. -/
def matchTop (t : String) : Option (List Char) :=
  scanMatch matchTopAt t.data

/-- `const days = trendMatch[1] ? parseInt(trendMatch[1], 10) : 30`. -/
def daysOf : Option (List Char) → Nat
  | none => 30
  | some ds => digitsToNat ds

/-- The tags of the ordered rule table, plus the terminal `unknown`. -/
inductive IntentTag
  | price
  | trend
  | volume
  | change
  | marketCap
  | topList
  | unknown
deriving DecidableEq, Repr

/-- The classification half of `parseQuery`: lower-case and trim the
query, then stop at the first rule whose pattern matches, in source
order. -/
def intentOf (query : String) : IntentTag :=
  let t := normQ query
  if (matchPrice t).isSome then IntentTag.price
  else if (matchTrend t).isSome then IntentTag.trend
  else if (matchVolume t).isSome then IntentTag.volume
  else if (matchChange t).isSome then IntentTag.change
  else if (matchMarketCap t).isSome then IntentTag.marketCap
  else if (matchTop t).isSome then IntentTag.topList
  else IntentTag.unknown

/-- Whether rule `i` (in the source's fixed order) matches the
lower-cased trimmed text. -/
def ruleMatches (i : Fin 6) (t : String) : Bool :=
  match i with
  | 0 => (matchPrice t).isSome
  | 1 => (matchTrend t).isSome
  | 2 => (matchVolume t).isSome
  | 3 => (matchChange t).isSome
  | 4 => (matchMarketCap t).isSome
  | 5 => (matchTop t).isSome

/-- The intent tag of rule `i`. -/
def ruleTag (i : Fin 6) : IntentTag :=
  match i with
  | 0 => IntentTag.price
  | 1 => IntentTag.trend
  | 2 => IntentTag.volume
  | 3 => IntentTag.change
  | 4 => IntentTag.marketCap
  | 5 => IntentTag.topList

/-! ### Data resolver and response formatter (the handlers) -/

/-- The `db.select().from(coins).where(eq(coins.coingeckoId,
coinName.toLowerCase())).limit(1)` lookup shared by every single-coin
handler: it matches the lower-cased query against the `coingecko_id`
column only. -/
def dbFindCoin (coins : List Coin) (coinName : String) : Option Coin :=
  coins.find? (fun c => c.coingeckoId == toLowerStr coinName)

/-- Insert into a list already sorted by descending timestamp. -/
def insertTsDesc (h : HistPoint) : List HistPoint → List HistPoint
  | [] => [h]
  | x :: xs =>
    if h.timestamp ≤ x.timestamp then x :: insertTsDesc h xs
    else h :: x :: xs

/-- `orderBy(desc(historicalPrices.timestamp))`. -/
def sortTsDesc : List HistPoint → List HistPoint
  | [] => []
  | x :: xs => insertTsDesc x (sortTsDesc xs)

/-- The history query of `handleTrendQuery`: rows of the coin with
`timestamp >= now - days`, newest first, capped at 100. -/
def trendWindow (env : Env) (cid : String) (days : Nat) : List HistPoint :=
  (sortTsDesc (env.db.history.filter (fun h =>
    h.coinId == cid && decide (env.now - (days : Int) ≤ h.timestamp)))).take 100

/-- Ordering key for `orderBy(desc(coins.marketCap))`; a SQL `NULL`
sorts first under `DESC`. -/
def mcGe (a b : Option Int) : Bool :=
  match a, b with
  | none, _ => true
  | some _, none => false
  | some x, some y => y ≤ x

/-- Insert into a list already sorted by descending market cap. -/
def insertMcDesc (c : Coin) : List Coin → List Coin
  | [] => [c]
  | x :: xs =>
    if mcGe x.marketCap c.marketCap then x :: insertMcDesc c xs
    else c :: x :: xs

/-- `orderBy(desc(coins.marketCap))`. -/
def sortMarketCapDesc : List Coin → List Coin
  | [] => []
  | x :: xs => insertMcDesc x (sortMarketCapDesc xs)

/-- The result object of `parseQuery`; the optional structured `data`
payload is not modelled, only the guaranteed answer string. -/
structure QueryResult where
  answer : String
deriving DecidableEq, Repr

/-- Price sentence from a local `coins` row. -/
def priceAnswerLocal (c : Coin) : String :=
  "The current price of " ++ c.name ++ " (" ++ toUpperStr c.symbol ++
    ") is $" ++ formatUSD (c.currentPrice.getD 0)

/-- Price sentence from remote market data. -/
def priceAnswerRemote (m : CoinMarketData) : String :=
  "The current price of " ++ m.name ++ " (" ++ toUpperStr m.symbol ++
    ") is $" ++ formatUSD m.current_price

/-- Volume sentence from a local row. -/
def volumeAnswerLocal (c : Coin) : String :=
  "The 24-hour trading volume of " ++ c.name ++ " (" ++ toUpperStr c.symbol ++
    ") is $" ++ formatUSD (c.volume24h.getD 0)

/-- Volume sentence from remote market data. -/
def volumeAnswerRemote (m : CoinMarketData) : String :=
  "The 24-hour trading volume of " ++ m.name ++ " (" ++ toUpperStr m.symbol ++
    ") is $" ++ formatUSD m.total_volume

/-- 24h-change sentence from a local row (sign prefixed when `>= 0`). -/
def changeAnswerLocal (c : Coin) : String :=
  "The 24-hour price change of " ++ c.name ++ " (" ++ toUpperStr c.symbol ++
    ") is " ++ (if 0 ≤ c.priceChange24h.getD 0 then "+" else "") ++
    fixed2 (c.priceChange24h.getD 0) ++ "%"

/-- 24h-change sentence from remote market data. -/
def changeAnswerRemote (m : CoinMarketData) : String :=
  "The 24-hour price change of " ++ m.name ++ " (" ++ toUpperStr m.symbol ++
    ") is " ++
    (if 0 ≤ m.price_change_percentage_24h then "+" else "") ++
    fixed2 m.price_change_percentage_24h ++ "%"

/-- Market-cap sentence from a local row. -/
def marketCapAnswerLocal (c : Coin) : String :=
  "The market capitalization of " ++ c.name ++ " (" ++ toUpperStr c.symbol ++
    ") is $" ++ formatUSD ((c.marketCap.getD 0 : Int) : ℚ)

/-- Market-cap sentence from remote market data. -/
def marketCapAnswerRemote (m : CoinMarketData) : String :=
  "The market capitalization of " ++ m.name ++ " (" ++ toUpperStr m.symbol ++
    ") is $" ++ formatUSD m.market_cap

/-- The shared coin-not-found apology. -/
def notFoundAnswer (coinName : String) : String :=
  "Sorry, I couldn't find information about " ++ coinName ++
    ". Please check the spelling and try again."

/-- The `catch` answer of a handler, parameterized by what was being
fetched ("price", "trend", ...). -/
def errAnswer (what : String) : String :=
  "Sorry, I encountered an error while fetching the " ++ what ++
    ". Please try again later."

/-- Trend answer when the coin was found only remotely. -/
def trendRemoteFoundAnswer (m : CoinMarketData) (days : Nat) : String :=
  "I found " ++ m.name ++ ", but I don't have " ++ toString days ++
    "-day historical data for it. Please select it from the dashboard to view the chart."

/-- Trend answer when the coin is local but its window is empty. -/
def trendNoHistoryAnswer (c : Coin) (days : Nat) : String :=
  "I found " ++ c.name ++ ", but I don't have " ++ toString days ++
    "-day historical data for it yet. The data may still be loading."

/-- The full trend sentence. -/
def trendAnswer (name : String) (days : Nat) (pastPrice currentPrice : ℚ)
    (change : JsNum) : String :=
  "Here's the " ++ toString days ++ "-day trend for " ++ name ++
    ": The price changed from $" ++ fixed2 pastPrice ++ " to $" ++
    fixed2 currentPrice ++ ", a " ++ (if jsGe0 change then "+" else "") ++
    jsToFixed2 change ++ "% change."

/-- One line of the top-coins enumeration. -/
def topCoinLine (p : Nat × Coin) : String :=
  toString (p.1 + 1) ++ ". " ++ p.2.name ++ " (" ++ toUpperStr p.2.symbol ++
    ") - $" ++ fixed2 (p.2.currentPrice.getD 0)

/-- The top-coins answer. -/
def topAnswer (limit : Nat) (topCoins : List Coin) : String :=
  "Here are the top " ++ toString limit ++ " coins by market cap:\n" ++
    String.intercalate "\n" (topCoins.enum.map topCoinLine)

/-- The empty-store answer of the top-coins handler. -/
def seedAnswer : String :=
  "I don't have any coin data yet. Please run the database seeding script first."

/-- The default help answer when no rule matches. -/
def helpAnswer : String :=
  "Sorry, I can't answer that. Try asking:\n" ++
    "- 'What is the price of Bitcoin?'\n" ++
    "- 'Show me the 7-day trend of Ethereum'\n" ++
    "- 'What is the volume of Bitcoin?'\n" ++
    "- 'Show me top 5 coins'"

/-- `handlePriceQuery`: local lookup first, `searchCoin` on a miss,
apology on no match, `catch` answer when the store throws. -/
def handlePriceQuery (coinName : String) (env : Env) (cache : SearchCache) :
    QueryResult × SearchCache × Effects :=
  if env.db.failing then ({ answer := errAnswer "price" }, cache, noFx)
  else
    match dbFindCoin env.db.coins coinName with
    | some c => ({ answer := priceAnswerLocal c }, cache, noFx)
    | none =>
      let res := searchCoin coinName env cache
      match res.1 with
      | some m => ({ answer := priceAnswerRemote m }, res.2.1, res.2.2)
      | none => ({ answer := notFoundAnswer coinName }, res.2.1, res.2.2)

/-- `handleTrendQuery`. -/
def handleTrendQuery (coinName : String) (days : Nat) (env : Env)
    (cache : SearchCache) : QueryResult × SearchCache × Effects :=
  if env.db.failing then ({ answer := errAnswer "trend" }, cache, noFx)
  else
    match dbFindCoin env.db.coins coinName with
    | none =>
      let res := searchCoin coinName env cache
      match res.1 with
      | none => ({ answer := notFoundAnswer coinName }, res.2.1, res.2.2)
      | some m => ({ answer := trendRemoteFoundAnswer m days }, res.2.1, res.2.2)
    | some c =>
      let history := trendWindow env c.coingeckoId days
      if history.isEmpty then
        ({ answer := trendNoHistoryAnswer c days }, cache, noFx)
      else
        let prices := history.map (fun h => h.price.getD 0)
        let currentPrice := prices.headD 0
        let pastPrice := prices.getLastD 0
        let change := trendChange currentPrice pastPrice
        ({ answer := trendAnswer c.name days pastPrice currentPrice change },
          cache, noFx)

/-- `handleVolumeQuery`. -/
def handleVolumeQuery (coinName : String) (env : Env) (cache : SearchCache) :
    QueryResult × SearchCache × Effects :=
  if env.db.failing then ({ answer := errAnswer "volume" }, cache, noFx)
  else
    match dbFindCoin env.db.coins coinName with
    | some c => ({ answer := volumeAnswerLocal c }, cache, noFx)
    | none =>
      let res := searchCoin coinName env cache
      match res.1 with
      | some m => ({ answer := volumeAnswerRemote m }, res.2.1, res.2.2)
      | none => ({ answer := notFoundAnswer coinName }, res.2.1, res.2.2)

/-- `handleChangeQuery`. -/
def handleChangeQuery (coinName : String) (env : Env) (cache : SearchCache) :
    QueryResult × SearchCache × Effects :=
  if env.db.failing then ({ answer := errAnswer "change" }, cache, noFx)
  else
    match dbFindCoin env.db.coins coinName with
    | some c => ({ answer := changeAnswerLocal c }, cache, noFx)
    | none =>
      let res := searchCoin coinName env cache
      match res.1 with
      | some m => ({ answer := changeAnswerRemote m }, res.2.1, res.2.2)
      | none => ({ answer := notFoundAnswer coinName }, res.2.1, res.2.2)

/-- `handleMarketCapQuery`. -/
def handleMarketCapQuery (coinName : String) (env : Env) (cache : SearchCache) :
    QueryResult × SearchCache × Effects :=
  if env.db.failing then ({ answer := errAnswer "market cap" }, cache, noFx)
  else
    match dbFindCoin env.db.coins coinName with
    | some c => ({ answer := marketCapAnswerLocal c }, cache, noFx)
    | none =>
      let res := searchCoin coinName env cache
      match res.1 with
      | some m => ({ answer := marketCapAnswerRemote m }, res.2.1, res.2.2)
      | none => ({ answer := notFoundAnswer coinName }, res.2.1, res.2.2)

/-- `handleTopCoinsQuery`: local only, no remote fallback. -/
def handleTopCoinsQuery (limit : Nat) (env : Env) (cache : SearchCache) :
    QueryResult × SearchCache × Effects :=
  if env.db.failing then ({ answer := errAnswer "top coins" }, cache, noFx)
  else
    let topCoins := (sortMarketCapDesc env.db.coins).take limit
    if topCoins.isEmpty then ({ answer := seedAnswer }, cache, noFx)
    else ({ answer := topAnswer limit topCoins }, cache, noFx)

/-- `parseQuery`: lower-case and trim, try the six rules in order,
dispatch to the first matching handler, else the help answer. -/
def parseQuery (query : String) (env : Env) (cache : SearchCache) :
    QueryResult × SearchCache × Effects :=
  let lowerQuery := normQ query
  match matchPrice lowerQuery with
  | some cap => handlePriceQuery (trimStr cap) env cache
  | none =>
  match matchTrend lowerQuery with
  | some p => handleTrendQuery (trimStr p.2) (daysOf p.1) env cache
  | none =>
  match matchVolume lowerQuery with
  | some cap => handleVolumeQuery (trimStr cap) env cache
  | none =>
  match matchChange lowerQuery with
  | some cap => handleChangeQuery (trimStr cap) env cache
  | none =>
  match matchMarketCap lowerQuery with
  | some cap => handleMarketCapQuery (trimStr cap) env cache
  | none =>
  match matchTop lowerQuery with
  | some ds => handleTopCoinsQuery (digitsToNat ds) env cache
  | none => ({ answer := helpAnswer }, cache, noFx)

/-! ### Concrete environments used by the closed theorems -/

/-- The seeded Bitcoin row of the price scenario (currentPrice is the
decimal 45000.50). -/
def btcRow : Coin := {
  coingeckoId := "bitcoin", symbol := "btc", name := "Bitcoin",
  currentPrice := some (mkRat 900010 20),
  marketCap := some 880000000000,
  priceChange24h := some (mkRat 5 2),
  volume24h := some (mkRat 123456789 100) }

/-- A local store holding the seeded Bitcoin row of the price scenario,
with two history points inside a 7-day window whose oldest price is 0. -/
def envBtc : Env := {
  db := { failing := false,
          coins := [btcRow],
          history := [{ coinId := "bitcoin", timestamp := 9, price := some 105 },
                      { coinId := "bitcoin", timestamp := 5, price := some 0 }] },
  remote := { indexOk := true, index := [], marketsOk := true, markets := [] },
  now := 10 }

/-- A configured, healthy, initially empty search cache. -/
def emptyCache : SearchCache := { configured := true, failing := false, entries := [] }

/-- An attempt sequence whose every outcome is an HTTP 429 response. -/
def always429 : Nat → Except HttpError (Option (List (Int × ℚ))) :=
  fun _ => Except.error { status := some 429 }

/-! ### C7 — cache gateway degrades to a no-op -/

/-- C7: for every key, value and TTL, when the cache store is
unconfigured or its underlying operation fails, `getCached` returns
absent and `setCached` leaves the state unchanged; neither operation
raises (both are total functions whose `catch` branches are these very
cases). -/
theorem cache_noop_when_unavailable {β : Type} (st : CacheState β)
    (key : String) (value : Option β) (ttl : Nat)
    (h : st.configured = false ∨ st.failing = true) :
    getCached st key = none ∧ setCached st key value ttl = st := by
  rcases h with h | h <;> simp [getCached, setCached, h]

/-- Witness for C7 at a concrete unconfigured store. -/
theorem cache_noop_when_unavailable_witness :
    getCached { configured := false, failing := false,
                entries := ([] : List (String × Nat × Option Nat)) } "k" = none ∧
    setCached { configured := false, failing := false,
                entries := ([] : List (String × Nat × Option Nat)) } "k" (some 7) 60 =
      { configured := false, failing := false, entries := [] } :=
  cache_noop_when_unavailable
    { configured := false, failing := false, entries := [] } "k" (some 7) 60
    (Or.inl rfl)

/-! ### C1 — retry backoff schedule of the history fetch -/

/-- C1 counterexample: with every attempt answered by HTTP 429, the
retry wrapper around `fetchCoinHistory` waits 10s and then 20s only —
not the claimed `[10s, 20s, 40s]` — and gives up propagating the
rate-limit error after its 3rd attempt, not its 4th. -/
theorem retry_schedule_counterexample :
    (fetchCoinHistory always429).2.1 = [10000, 20000] ∧
    (fetchCoinHistory always429).2.1 ≠ [10000, 20000, 40000] ∧
    (fetchCoinHistory always429).2.2 = 3 ∧
    (fetchCoinHistory always429).1 =
      Except.error (RetryErr.http { status := some 429 }) := by
  refine ⟨rfl, ?_, rfl, rfl⟩
  decide

/-- C1 amended: for a history fetch answered by HTTP 429 on every
attempt, the retry wrapper waits exactly 10s after the first failure and
20s after the second, and gives up (propagating the rate-limit error) on
the 3rd consecutive 429 failure. -/
theorem retry_schedule_amended
    (attempts : Nat → Except HttpError (Option (List (Int × ℚ))))
    (h : ∀ i, i < 3 → attempts i = Except.error { status := some 429 }) :
    fetchCoinHistory attempts =
      (Except.error (RetryErr.http { status := some 429 }), [10000, 20000], 3) := by
  have h0 := h 0 (by omega)
  have h1 := h 1 (by omega)
  have h2 := h 2 (by omega)
  simp [fetchCoinHistory, retry, retryLoop, h0, h1, h2, Except.map]

/-- Witness for C1's amended theorem at the all-429 attempt sequence. -/
theorem retry_schedule_amended_witness :
    fetchCoinHistory always429 =
      (Except.error (RetryErr.http { status := some 429 }), [10000, 20000], 3) :=
  retry_schedule_amended always429 (fun _ _ => rfl)

/-! ### C2 — unguarded division by a zero oldest price -/

/-- C2: the trend computation does not guard the division by the
oldest price.  On a window whose oldest price is 0 the change is the
non-finite `Infinity`, and the formatted answer carries
"+Infinity% change." to the user instead of the 0% the specification
requires. -/
theorem trend_zero_oldest_unguarded :
    trendChange 105 0 = JsNum.inf ∧
    trendChange 105 0 ≠ JsNum.fin 0 ∧
    (parseQuery "7-day trend of bitcoin" envBtc emptyCache).1.answer =
      "Here's the 7-day trend for Bitcoin: The price changed from $0.00 to $105.00, a +Infinity% change." := by
  refine ⟨by decide, by decide, ?_⟩
  decide

/-! ### C3 — negative search results are stored but never served -/

/-- C3: searching a query that has no match in the provider index does
cache `null` under the search key, but an immediately repeated identical
search still contacts the provider's index again (`indexFetches = 1` on
the second call), because the `cached !== null` read guard cannot
distinguish the stored `null` from a miss — contradicting the claim
that the repetition is answered from the cache. -/
theorem search_negative_cache_not_served :
    (searchCoin "nosuchcoin" envBtc emptyCache).2.1.entries =
      [("crypto:search:nosuchcoin", 3600, none)] ∧
    (searchCoin "nosuchcoin" envBtc
        (searchCoin "nosuchcoin" envBtc emptyCache).2.1).2.2.indexFetches = 1 ∧
    (searchCoin "nosuchcoin" envBtc
        (searchCoin "nosuchcoin" envBtc emptyCache).2.1).1 = none := by
  refine ⟨?_, rfl, rfl⟩
  decide


/-! ### C8 — the price scenario -/

/-- C8: with the seeded Bitcoin row (name "Bitcoin", symbol "btc",
current price 45000.50) in the local store, the query
"What is the price of Bitcoin?" is answered exactly as the scenario
requires: thousands separator, two decimals, upper-cased symbol. -/
theorem price_bitcoin_scenario :
    (parseQuery "What is the price of Bitcoin?" envBtc emptyCache).1.answer =
      "The current price of Bitcoin (BTC) is $45,000.50" := by
  decide

/-! ### C6 — a local hit never consults the remote provider -/

/-- C6: for every single-coin intent handler (price, volume, change,
market cap), when the store is healthy and holds the coin under the
normalized identifier, the handler answers from the local record, makes
no provider call (`noFx`), and leaves the cache untouched. -/
theorem local_hit_short_circuits (q : String) (env : Env)
    (cache : SearchCache) (c : Coin)
    (hdb : env.db.failing = false)
    (hfind : dbFindCoin env.db.coins q = some c) :
    handlePriceQuery q env cache = ({ answer := priceAnswerLocal c }, cache, noFx) ∧
    handleVolumeQuery q env cache = ({ answer := volumeAnswerLocal c }, cache, noFx) ∧
    handleChangeQuery q env cache = ({ answer := changeAnswerLocal c }, cache, noFx) ∧
    handleMarketCapQuery q env cache = ({ answer := marketCapAnswerLocal c }, cache, noFx) := by
  refine ⟨?_, ?_, ?_, ?_⟩ <;>
    simp [handlePriceQuery, handleVolumeQuery, handleChangeQuery,
      handleMarketCapQuery, hdb, hfind]

/-- Witness for C6: the Bitcoin row of `envBtc` answers all four
single-coin intents locally, with zero provider calls. -/
theorem local_hit_short_circuits_witness :
    handlePriceQuery "bitcoin" envBtc emptyCache =
      ({ answer := priceAnswerLocal btcRow }, emptyCache, noFx) ∧
    handleVolumeQuery "bitcoin" envBtc emptyCache =
      ({ answer := volumeAnswerLocal btcRow }, emptyCache, noFx) ∧
    handleChangeQuery "bitcoin" envBtc emptyCache =
      ({ answer := changeAnswerLocal btcRow }, emptyCache, noFx) ∧
    handleMarketCapQuery "bitcoin" envBtc emptyCache =
      ({ answer := marketCapAnswerLocal btcRow }, emptyCache, noFx) :=
  local_hit_short_circuits "bitcoin" envBtc emptyCache btcRow rfl (by decide)

/-! ### C4 — answerQuery always returns an answer string -/

/-- A string starting with a nonempty literal is nonempty. -/
theorem answer_pos_of_lit (a b : String) (h : 0 < a.length) :
    0 < (a ++ b).length := by
  rw [String.length_append]
  omega

/-- Every price-handler path yields a nonempty answer. -/
theorem handlePrice_pos (n : String) (env : Env) (cache : SearchCache) :
    0 < ((handlePriceQuery n env cache).1.answer).length := by
  unfold handlePriceQuery priceAnswerLocal priceAnswerRemote notFoundAnswer
    errAnswer
  repeat' (first | split | dsimp only)
  all_goals repeat' apply answer_pos_of_lit
  all_goals decide

/-- Every volume-handler path yields a nonempty answer. -/
theorem handleVolume_pos (n : String) (env : Env) (cache : SearchCache) :
    0 < ((handleVolumeQuery n env cache).1.answer).length := by
  unfold handleVolumeQuery volumeAnswerLocal volumeAnswerRemote notFoundAnswer
    errAnswer
  repeat' (first | split | dsimp only)
  all_goals repeat' apply answer_pos_of_lit
  all_goals decide

/-- Every change-handler path yields a nonempty answer. -/
theorem handleChange_pos (n : String) (env : Env) (cache : SearchCache) :
    0 < ((handleChangeQuery n env cache).1.answer).length := by
  unfold handleChangeQuery changeAnswerLocal changeAnswerRemote notFoundAnswer
    errAnswer
  repeat' (first | split | dsimp only)
  all_goals repeat' apply answer_pos_of_lit
  all_goals decide

/-- Every market-cap-handler path yields a nonempty answer. -/
theorem handleMarketCap_pos (n : String) (env : Env) (cache : SearchCache) :
    0 < ((handleMarketCapQuery n env cache).1.answer).length := by
  unfold handleMarketCapQuery marketCapAnswerLocal marketCapAnswerRemote
    notFoundAnswer errAnswer
  repeat' (first | split | dsimp only)
  all_goals repeat' apply answer_pos_of_lit
  all_goals decide

/-- Every trend-handler path yields a nonempty answer. -/
theorem handleTrend_pos (n : String) (days : Nat) (env : Env)
    (cache : SearchCache) :
    0 < ((handleTrendQuery n days env cache).1.answer).length := by
  unfold handleTrendQuery trendAnswer trendNoHistoryAnswer
    trendRemoteFoundAnswer notFoundAnswer errAnswer
  repeat' (first | split | dsimp only)
  all_goals repeat' apply answer_pos_of_lit
  all_goals decide

/-- Every top-coins path yields a nonempty answer. -/
theorem handleTop_pos (limit : Nat) (env : Env) (cache : SearchCache) :
    0 < ((handleTopCoinsQuery limit env cache).1.answer).length := by
  unfold handleTopCoinsQuery topAnswer seedAnswer errAnswer
  repeat' (first | split | dsimp only)
  all_goals repeat' apply answer_pos_of_lit
  all_goals decide

set_option maxRecDepth 4096 in
/-- C4: `parseQuery` is a total function and, on every path — unknown
intent, coin not found locally or remotely, history unavailable, a
throwing store or provider — its result carries a nonempty answer
string.  Every `throw` of the source is modelled inside the handlers
(the failure flags of `Env`), so totality of this function over all
environments is exactly the never-raises contract. -/
theorem answerQuery_total (q : String) (env : Env) (cache : SearchCache) :
    0 < ((parseQuery q env cache).1.answer).length := by
  unfold parseQuery
  dsimp only
  split
  · apply handlePrice_pos
  · split
    · apply handleTrend_pos
    · split
      · apply handleVolume_pos
      · split
        · apply handleChange_pos
        · split
          · apply handleMarketCap_pos
          · split
            · apply handleTop_pos
            · dsimp only
              decide

/-! ### C5 — first matching rule wins -/

/-- C5: classification returns the intent of the first matching rule in
the fixed order price, trend, volume, change, market cap, top list; in
particular "what is the price of bitcoin" classifies as price, never as
change. -/
theorem classifier_first_match_wins :
    (∀ (s : String) (i : Fin 6),
        ruleMatches i (normQ s) = true →
        (∀ j : Fin 6, j < i → ruleMatches j (normQ s) = false) →
        intentOf s = ruleTag i) ∧
    intentOf "what is the price of bitcoin" = IntentTag.price ∧
    IntentTag.price ≠ IntentTag.change := by
  refine ⟨?_, by decide, by decide⟩
  intro s i h1 h2
  fin_cases i
  · simp only [ruleMatches] at h1
    simp [intentOf, ruleTag, h1]
  · have h0 := h2 0 (by decide)
    simp only [ruleMatches] at h1 h0
    simp [intentOf, ruleTag, h0, h1]
  · have h0 := h2 0 (by decide)
    have hb := h2 1 (by decide)
    simp only [ruleMatches] at h1 h0 hb
    simp [intentOf, ruleTag, h0, hb, h1]
  · have h0 := h2 0 (by decide)
    have hb := h2 1 (by decide)
    have hc := h2 2 (by decide)
    simp only [ruleMatches] at h1 h0 hb hc
    simp [intentOf, ruleTag, h0, hb, hc, h1]
  · have h0 := h2 0 (by decide)
    have hb := h2 1 (by decide)
    have hc := h2 2 (by decide)
    have hd := h2 3 (by decide)
    simp only [ruleMatches] at h1 h0 hb hc hd
    simp [intentOf, ruleTag, h0, hb, hc, hd, h1]
  · have h0 := h2 0 (by decide)
    have hb := h2 1 (by decide)
    have hc := h2 2 (by decide)
    have hd := h2 3 (by decide)
    have he := h2 4 (by decide)
    simp only [ruleMatches] at h1 h0 hb hc hd he
    simp [intentOf, ruleTag, h0, hb, hc, hd, he, h1]

/-- Witness for C5: "what is the volume of doge?" matches rule 3
(volume) and no earlier rule, so it classifies as volume. -/
theorem classifier_first_match_wins_witness :
    intentOf "what is the volume of doge?" = IntentTag.volume :=
  classifier_first_match_wins.1 "what is the volume of doge?" 2 (by decide)
    (by decide)

/-! ### C9 — the 30-day default of the trend rule -/

set_option maxRecDepth 8192 in
/-- C9 counterexample: "trend of bitcoin" — the claim's own example of a
trend query without a day count — does not match the trend rule at all
(its pattern requires the word "day"), so even with the coin and its
history in the local store the parser returns the help text, not a
30-day trend answer. -/
theorem trend_without_day_keyword_counterexample :
    intentOf "trend of bitcoin" = IntentTag.unknown ∧
    (parseQuery "trend of bitcoin" envBtc emptyCache).1.answer = helpAnswer := by
  exact ⟨by decide, by decide⟩

/-- C9 amended: for every query that does match the trend rule (whose
pattern requires the word "day", e.g. "show me the day history of eth")
while omitting an explicit day count, the day count defaults to 30; the
handler uses that same count both as the time floor of the history
filter (`now - 30`) and in the answer text (`trendNoHistoryAnswer`/
`trendAnswer` render it as "30-day ‥"). -/
theorem trend_default_thirty_days :
    (∀ (s : String) (env : Env) (cache : SearchCache) (cap : String),
        matchPrice (normQ s) = none →
        matchTrend (normQ s) = some (none, cap) →
        parseQuery s env cache = handleTrendQuery (trimStr cap) 30 env cache) ∧
    (∀ (env : Env) (cid : String),
        trendWindow env cid 30 =
          (sortTsDesc (env.db.history.filter (fun h =>
            h.coinId == cid && decide (env.now - 30 ≤ h.timestamp)))).take 100) ∧
    (∀ (n : String) (env : Env) (cache : SearchCache) (c : Coin),
        env.db.failing = false →
        dbFindCoin env.db.coins n = some c →
        (handleTrendQuery n 30 env cache).1.answer = trendNoHistoryAnswer c 30 ∨
        ∃ past cur chg,
          (handleTrendQuery n 30 env cache).1.answer =
            trendAnswer c.name 30 past cur chg) := by
  refine ⟨?_, ?_, ?_⟩
  · intro s env cache cap h1 h2
    unfold parseQuery
    simp only [h1, h2]
    rfl
  · intro env cid
    rfl
  · intro n env cache c hdb hfind
    simp [handleTrendQuery, hdb, hfind]
    split
    · exact Or.inl rfl
    · exact Or.inr ⟨_, _, _, rfl⟩

/-- Witness for C9's amended theorem: "show me the day history of eth"
dispatches to the trend handler with the 30-day default. -/
theorem trend_default_thirty_days_witness :
    parseQuery "show me the day history of eth" envBtc emptyCache =
      handleTrendQuery (trimStr "eth") 30 envBtc emptyCache :=
  trend_default_thirty_days.1 "show me the day history of eth" envBtc
    emptyCache "eth" (by decide) (by decide)

/-! ### C10 — local lookup matches the identifier only -/

/-- A local store whose only coin is stored under the identifier
"ripple" with symbol "xrp"; the provider index carries the same triple. -/
def xrpRow : Coin := {
  coingeckoId := "ripple", symbol := "xrp", name := "XRP",
  currentPrice := some 1, marketCap := some 1,
  priceChange24h := some 0, volume24h := some 0 }

/-- Environment for the C10 witness. -/
def xrpEnv : Env := {
  db := { failing := false, coins := [xrpRow], history := [] },
  remote := { indexOk := true,
              index := [{ id := "ripple", symbol := "xrp", name := "XRP" }],
              marketsOk := true, markets := [] },
  now := 0 }

/-- C10: the local lookup of a single-coin query matches only the
lower-cased CoinGecko identifier.  A healthy store whose record matches
the query by symbol or display name but not by identifier is a local
miss: the handler consults the provider index (one index fetch).  The
remote search, by contrast, does match the identifier, the symbol and
the name (an index entry agreeing on any of the three is found). -/
theorem local_lookup_matches_id_only :
    (∀ (q : String) (env : Env) (cache : SearchCache),
        env.db.failing = false →
        dbFindCoin env.db.coins q = none →
        (∃ c, c ∈ env.db.coins ∧
          (toLowerStr c.symbol = normQ q ∨ toLowerStr c.name = normQ q)) →
        getCached cache (getCacheKey "search" [normQ q]) = none →
        env.remote.indexOk = true →
        ((handlePriceQuery q env cache).2.2).indexFetches = 1) ∧
    (∀ (index : List IndexCoin) (lq : String) (e : IndexCoin),
        e ∈ index →
        (toLowerStr e.id == lq || toLowerStr e.symbol == lq ||
          toLowerStr e.name == lq) = true →
        (findIndexMatch index lq).isSome = true) := by
  constructor
  · intro q env cache hdb hfind _hlocal hcache hidx
    have hs : (searchCoin q env cache).2.2.indexFetches = 1 := by
      unfold searchCoin
      simp only [hcache, hidx, if_true]
      cases findIndexMatch env.remote.index (normQ q) with
      | none => rfl
      | some m =>
        dsimp only
        cases hm : env.remote.marketsOk <;> simp
    simp only [handlePriceQuery, hdb, hfind]
    simp only [Bool.false_eq_true, if_false]
    cases hres : (searchCoin q env cache).1 with
    | none => simpa [hres] using hs
    | some m => simpa [hres] using hs
  · intro index lq e hmem hp
    unfold findIndexMatch
    have hsome : (index.find? (fun c =>
        toLowerStr c.id == lq || toLowerStr c.symbol == lq ||
        toLowerStr c.name == lq)).isSome := by
      rw [List.find?_isSome]
      exact ⟨e, hmem, hp⟩
    obtain ⟨x, hx⟩ := Option.isSome_iff_exists.mp hsome
    rw [hx]
    rfl

/-- Witness for C10: the query "xrp" misses the local store (stored id
is "ripple") even though the stored symbol is "xrp", consults the index
once, and the index matcher does find the entry by symbol. -/
theorem local_lookup_matches_id_only_witness :
    ((handlePriceQuery "xrp" xrpEnv emptyCache).2.2).indexFetches = 1 ∧
    (findIndexMatch [{ id := "ripple", symbol := "xrp", name := "XRP" }]
      "xrp").isSome = true :=
  ⟨local_lookup_matches_id_only.1 "xrp" xrpEnv emptyCache rfl (by decide)
      ⟨xrpRow, by decide, Or.inl (by decide)⟩ (by decide) rfl,
    local_lookup_matches_id_only.2
      [{ id := "ripple", symbol := "xrp", name := "XRP" }] "xrp"
      { id := "ripple", symbol := "xrp", name := "XRP" }
      (by decide) (by decide)⟩
